import Mathlib

/-!
# Verification of the two-fighter combat simulator

Shallow embedding of the combat/physics core of the repository
(`Characters.py`, `main.py`, `ai.py`) and proofs about the spec's claims.

Conventions of the embedding:
* `pygame.Rect` fields are integers; the rectangle is modelled as four `ℤ`
  fields, with `left/right/top/bottom/centerx/centery` derived exactly as
  pygame derives them (`centerx = x + w / 2` with integer division; all
  widths/heights occurring in the program are positive so the division
  convention is immaterial).
* velocities, `percent`, `weight` and the time-free numeric constants are
  modelled over `ℚ` (the Python floats carry exact decimal constants such
  as `0.6`, `0.85`, modelled as the rationals `3/5`, `17/20`).
* `pygame.time.get_ticks()` is an external monotone clock; every operation
  that samples it takes the sampled value `now : ℤ` as an argument.
* Python `int(...)` truncation toward zero is `trunc`; where the source
  computes `int(width * 0.6)` on small positive integer widths, the
  embedding uses the exact integer computation `6 * width / 10`.
* `random.random()` draws are modelled by threading an explicit list of
  rationals through the decision engine, popped in exactly the order the
  source samples the generator; `random.randint(15, 40)` is an explicit
  integer argument.
-/

namespace Smash

/-- Python `int()` truncation toward zero on a rational. -/
def trunc (q : ℚ) : ℤ := if 0 ≤ q then ⌊q⌋ else ⌈q⌉

/-- `pygame.Rect`: integer position and size. -/
structure Rect where
  x : ℤ
  y : ℤ
  w : ℤ
  h : ℤ
deriving DecidableEq, Repr

def Rect.left (r : Rect) : ℤ := r.x

def Rect.right (r : Rect) : ℤ := r.x + r.w

def Rect.top (r : Rect) : ℤ := r.y

def Rect.bottom (r : Rect) : ℤ := r.y + r.h

def Rect.centerx (r : Rect) : ℤ := r.x + r.w / 2

def Rect.centery (r : Rect) : ℤ := r.y + r.h / 2

/-- pygame `Rect.colliderect`: strict overlap on both axes. -/
def Rect.colliderect (a b : Rect) : Bool :=
  (a.x < b.x + b.w) && (a.x + a.w > b.x) && (a.y < b.y + b.h) && (a.y + a.h > b.y)

/-- assignment `rect.bottom = b` (pygame moves the rect, keeping its size). -/
def Rect.setBottom (r : Rect) (b : ℤ) : Rect := { r with y := b - r.h }

/-- assignment `rect.center = (cx, cy)`. -/
def Rect.setCenter (r : Rect) (cx cy : ℤ) : Rect :=
  { r with x := cx - r.w / 2, y := cy - r.h / 2 }

/-- `pygame.math.Vector2` as used for velocities. -/
structure Vec2 where
  x : ℚ
  y : ℚ
deriving DecidableEq, Repr

/-- cosmetic animation state (`current_state` in `Character`). -/
inductive CState
  | idle
  | run
  | attack
  | special
deriving DecidableEq, Repr

/-- one entry of `Character.active_attacks`
(`{"rect": ..., "damage": ..., "knockback": ..., "time": ..., "alive": ...}`). -/
structure Hitbox where
  rect : Rect
  damage : ℚ
  knockback : ℚ
  time : ℤ
  alive : Bool
deriving DecidableEq, Repr

/-- `characters.Projectile`. The `owner` back-reference is modelled by the
side flag `ownerIsPlayer` (the simulation has exactly two entities). -/
structure Projectile where
  rect : Rect
  vel : Vec2
  ownerIsPlayer : Bool
  damage : ℚ
  knockback : ℚ
  alive : Bool
deriving DecidableEq, Repr

/-- `Projectile.update`: linear translation by the truncated velocity. -/
def Projectile.update (p : Projectile) : Projectile :=
  { p with rect := { p.rect with x := p.rect.x + trunc p.vel.x, y := p.rect.y + trunc p.vel.y } }

/-- simulation-relevant state of `characters.Character`. The sprite maps are
cosmetic; all the simulation reads of them are of the form
`self.animations.get("attack")`-is-truthy, kept here as two booleans, plus
the `current_state` label. -/
structure Char where
  rect : Rect
  vel : Vec2
  speed : ℚ
  jump_strength : ℚ
  on_ground : Bool
  facing : ℤ
  percent : ℚ
  weight : ℚ
  active_attacks : List Hitbox
  last_attack_time : ℤ
  attack_cooldown : ℤ
  stocks : ℤ
  current_state : CState
  has_attack_anim : Bool
  has_special_anim : Bool
deriving DecidableEq, Repr

/-- `Character.update_physics`. -/
def update_physics (c : Char) (gravity : ℚ) : Char :=
  let c := { c with vel := { c.vel with y := c.vel.y + gravity } }
  if c.on_ground then { c with vel := { c.vel with x := c.vel.x * (17/20) } } else c

/-- `Character.apply_input`. -/
def apply_input (c : Char) (move : ℤ) (jump : Bool) : Char :=
  let c :=
    if move ≠ 0 then
      { c with vel := { c.vel with x := c.vel.x + (move : ℚ) * c.speed },
               facing := if move > 0 then 1 else -1 }
    else c
  if jump ∧ c.on_ground then
    { c with vel := { c.vel with y := c.jump_strength }, on_ground := false }
  else c

/-- the knockback impulse formula of `Character.receive_hit`:
`base_kb * (1 + percent / 100.0) / max(0.5, weight)`, where `percent` is
the value after adding the hit's damage. -/
def kb_force (base_kb pct weight : ℚ) : ℚ :=
  base_kb * (1 + pct / 100) / max (1/2) weight

/-- `Character.receive_hit`. -/
def receive_hit (c : Char) (damage base_kb : ℚ) (source : Char) : Char :=
  let pct := c.percent + damage
  let force := kb_force base_kb pct c.weight
  let direction : ℚ := if c.rect.centerx > source.rect.centerx then 1 else -1
  { c with percent := pct,
           vel := ⟨c.vel.x + force * direction, c.vel.y - force * (6/10)⟩ }

/-- `Character.on_ko`. -/
def on_ko (c : Char) : Char :=
  let c := { c with stocks := c.stocks - 1 }
  if c.stocks ≤ 0 then { c with stocks := 3, percent := 0 } else c

/-- result of an attack method: `("melee",)` or `("proj", p)`. `None` is
`Option.none` of the surrounding `Option AttackResult`. -/
inductive AttackResult
  | melee
  | proj (p : Projectile)
deriving DecidableEq, Repr

/-- cosmetic: `if self.animations.get("attack"): self.current_state = "attack"`. -/
def set_attack_anim (c : Char) : Char :=
  if c.has_attack_anim then { c with current_state := .attack } else c

/-- cosmetic: `if self.animations.get("special"): self.current_state = "special"`. -/
def set_special_anim (c : Char) : Char :=
  if c.has_special_anim then { c with current_state := .special } else c

/-- `Character.light_attack` (base class). -/
def light_attack (c : Char) (now : ℤ) : Option AttackResult × Char :=
  if now - c.last_attack_time < c.attack_cooldown then (none, c) else
  let c := { c with last_attack_time := now }
  let reach := 6 * c.rect.w / 10
  let r : Rect :=
    if c.facing = 1 then ⟨c.rect.right, c.rect.centery - 10, reach, 20⟩
    else ⟨c.rect.left - reach, c.rect.centery - 10, reach, 20⟩
  let c := { c with active_attacks := c.active_attacks ++ [⟨r, 6, 6, now, true⟩] }
  (some .melee, set_attack_anim c)

/-- `Character.heavy_attack` (base class). -/
def heavy_attack (c : Char) (now : ℤ) : Option AttackResult × Char :=
  if now - c.last_attack_time < 13 * c.attack_cooldown / 10 then (none, c) else
  let c := { c with last_attack_time := now }
  let reach := 9 * c.rect.w / 10
  let c :=
    if c.facing = 1 then
      { c with vel := { c.vel with x := c.vel.x - 2 },
               active_attacks := c.active_attacks ++
                 [⟨⟨c.rect.right, c.rect.centery - 14, reach, 28⟩, 10, 12, now, true⟩] }
    else
      { c with vel := { c.vel with x := c.vel.x + 2 },
               active_attacks := c.active_attacks ++
                 [⟨⟨c.rect.left - reach, c.rect.centery - 14, reach, 28⟩, 10, 12, now, true⟩] }
  (some .melee, set_attack_anim c)

/-- `Character.special_attack` (base class). -/
def special_attack (c : Char) (now : ℤ) : Option AttackResult × Char :=
  if now - c.last_attack_time < 9 * c.attack_cooldown / 10 then (none, c) else
  let c := { c with last_attack_time := now,
                    vel := { c.vel with x := c.vel.x + 6 * (c.facing : ℚ) } }
  let reach := 7 * c.rect.w / 10
  let r : Rect :=
    if c.facing = 1 then ⟨c.rect.right, c.rect.centery - 10, reach, 20⟩
    else ⟨c.rect.left - reach, c.rect.centery - 10, reach, 20⟩
  let c := { c with active_attacks := c.active_attacks ++ [⟨r, 8, 10, now, true⟩] }
  (some .melee, set_special_anim c)

/-- `Ninja.special_attack`: 400ms window, teleport dash of 60 units. -/
def Ninja_special_attack (c : Char) (now : ℤ) : Option AttackResult × Char :=
  if now - c.last_attack_time < 400 then (none, c) else
  let c := { c with last_attack_time := now,
                    rect := { c.rect with x := c.rect.x + 60 * c.facing } }
  let reach : ℤ := 40
  let r : Rect :=
    if c.facing = 1 then ⟨c.rect.right, c.rect.centery - 12, reach, 24⟩
    else ⟨c.rect.left - reach, c.rect.centery - 12, reach, 24⟩
  let c := { c with active_attacks := c.active_attacks ++ [⟨r, 12, 14, now, true⟩] }
  (some .melee, set_special_anim c)

/-- `Assassin.special_attack`: 700ms window, dash of 80 units. -/
def Assassin_special_attack (c : Char) (now : ℤ) : Option AttackResult × Char :=
  if now - c.last_attack_time < 700 then (none, c) else
  let c := { c with last_attack_time := now,
                    rect := { c.rect with x := c.rect.x + 80 * c.facing } }
  let reach : ℤ := 40
  let r : Rect :=
    if c.facing = 1 then ⟨c.rect.right, c.rect.centery - 14, reach, 28⟩
    else ⟨c.rect.left - reach, c.rect.centery - 14, reach, 28⟩
  let c := { c with active_attacks := c.active_attacks ++ [⟨r, 16, 18, now, true⟩] }
  (some .melee, set_special_anim c)

/-- `Priest.special_attack`: 1000ms window, self-heal of 12 percent. -/
def Priest_special_attack (c : Char) (now : ℤ) : Option AttackResult × Char :=
  if now - c.last_attack_time < 1000 then (none, c) else
  let c := { c with last_attack_time := now,
                    percent := max 0 (c.percent - 12) }
  (some .melee, set_special_anim c)

/-- `Boxer.light_attack`: three-punch combo, three hitboxes with staggered
timestamps in a single call. -/
def Boxer_light_attack (c : Char) (now : ℤ) : Option AttackResult × Char :=
  if now - c.last_attack_time < c.attack_cooldown then (none, c) else
  let c := { c with last_attack_time := now }
  let reach : ℤ := 26
  let r : Rect :=
    if c.facing = 1 then ⟨c.rect.right, c.rect.centery - 10, reach, 20⟩
    else ⟨c.rect.left - reach, c.rect.centery - 10, reach, 20⟩
  let c := { c with active_attacks := c.active_attacks ++
    [⟨r, 4, 4, now, true⟩, ⟨r, 5, 5, now + 60, true⟩, ⟨r, 6, 6, now + 120, true⟩] }
  (some .melee, set_attack_anim c)

/-- `Mage.special_attack`: 500ms window, spawns a projectile.
`sp` records which side the mage is on (the `owner` back-reference). -/
def Mage_special_attack (c : Char) (now : ℤ) (sp : Bool) : Option AttackResult × Char :=
  if now - c.last_attack_time < 500 then (none, c) else
  let c := { c with last_attack_time := now }
  let p : Projectile :=
    ⟨⟨c.rect.centerx + c.facing * 30, c.rect.centery - 10, 14, 14⟩,
     ⟨10 * (c.facing : ℚ), 0⟩, sp, 9, 10, true⟩
  (some (.proj p), c)

/-! ## Arena constants and platform collision (`main.py`) -/

def WIDTH : ℤ := 1000

def HEIGHT : ℤ := 600

def GROUND_Y : ℤ := HEIGHT - 80

/-- the `PLATFORMS` list of `main.py`. -/
def PLATFORMS : List Rect :=
  [⟨0, GROUND_Y, WIDTH, 80⟩,
   ⟨WIDTH / 2 - 100, GROUND_Y - 150, 200, 20⟩,
   ⟨150, GROUND_Y - 90, 200, 20⟩,
   ⟨WIDTH - 350, GROUND_Y - 90, 200, 20⟩]

/-- the body of the per-platform loop of `handle_platform_collisions`. -/
def collide_step (e : Char) (plat : Rect) : Char :=
  if e.rect.colliderect plat then
    if 0 ≤ e.vel.y ∧ (e.rect.bottom : ℚ) - e.vel.y ≤ (plat.top : ℚ) + 6 then
      { e with rect := e.rect.setBottom plat.top,
               vel := { e.vel with y := 0 },
               on_ground := true }
    else e
  else e

/-- `main.handle_platform_collisions`: reset `on_ground`, then the platform
loop (the list argument lets theorems quantify over platform sets; the game
always passes `PLATFORMS`). -/
def handle_platform_collisions (plats : List Rect) (e : Char) : Char :=
  plats.foldl collide_step { e with on_ground := false }

/-! ## Match state and the KO / stock lifecycle (`main.py`) -/

/-- which of the two combatants; `winner` takes values `"player"`/`"enemy"`. -/
inductive Side
  | player
  | enemy
deriving DecidableEq, Repr

def Side.other : Side → Side
  | .player => .enemy
  | .enemy => .player

/-- the simulation-relevant locals of `main_game`. -/
structure Match where
  player : Char
  enemy : Char
  projectiles : List Projectile
  game_over : Bool
  winner : Option Side
deriving DecidableEq, Repr

def Match.get (m : Match) : Side → Char
  | .player => m.player
  | .enemy => m.enemy

def Match.set (m : Match) : Side → Char → Match
  | .player, c => { m with player := c }
  | .enemy, c => { m with enemy := c }

/-- the out-of-bounds test of `check_ko`:
`ent.rect.top > HEIGHT + 200 or ent.rect.right < -200 or ent.rect.left > WIDTH + 200`. -/
def oob (e : Char) : Bool :=
  (e.rect.top > HEIGHT + 200) || (e.rect.right < -200) || (e.rect.left > WIDTH + 200)

/-- the respawn branch of `check_ko`: `on_ko`, zero the percent, recenter at
the spawn point, zero the velocity. -/
def respawn (e : Char) (spawn_x : ℤ) : Char :=
  let e := on_ko e
  let e := { e with percent := 0 }
  let e := { e with rect := e.rect.setCenter spawn_x (GROUND_Y - e.rect.h / 2) }
  { e with vel := ⟨0, 0⟩ }

/-- `check_ko` of `main_game` for one entity. -/
def check_ko (m : Match) (who : Side) (spawn_x : ℤ) : Match :=
  let ent := m.get who
  if oob ent then
    if ent.stocks ≤ 1 then
      { m with winner := some who.other, game_over := true }
    else
      m.set who (respawn ent spawn_x)
  else m

/-- the two `check_ko` calls of the tick, in source order
(`check_ko(player, WIDTH*0.25)` then `check_ko(enemy, WIDTH*0.75)`;
`int(WIDTH*0.25) = 250`, `int(WIDTH*0.75) = 750`). -/
def ko_phase (m : Match) : Match :=
  check_ko (check_ko m .player 250) .enemy 750

/-- the `if not game_over:` guard around the whole simulation block of the
main loop: once the match is over, the tick body is skipped entirely. -/
def tick_guard (f : Match → Match) (m : Match) : Match :=
  if m.game_over then m else f m

/-! ## Hitbox and projectile collision phases (`main_game`) -/

/-- the inner loop `for atk in owner.active_attacks[:]` of the hitbox
collision phase for one owner: threads the target through the hits, kills a
hitbox that connects, and also returns the list of hitboxes that fired. -/
def attack_scan : List Hitbox → Char → Char → List Hitbox × Char × List Hitbox
  | [], _, target => ([], target, [])
  | a :: rest, owner, target =>
    if a.rect.colliderect target.rect && a.alive then
      let target := receive_hit target a.damage a.knockback owner
      let out := attack_scan rest owner target
      ({ a with alive := false } :: out.1, out.2.1, a :: out.2.2)
    else
      let out := attack_scan rest owner target
      (a :: out.1, out.2.1, out.2.2)

/-- hitbox pruning:
`[a for a in owner.active_attacks if a["alive"] and pygame.time.get_ticks() - a["time"] < 600]`. -/
def prune_attacks (now : ℤ) (l : List Hitbox) : List Hitbox :=
  l.filter (fun a => a.alive && now - a.time < 600)

/-- one iteration of the projectile-vs-entity loop: note the source checks
`colliderect` but **not** `p.alive` here; returns the updated projectile,
player, enemy, and whether a hit fired. -/
def proj_step (pl en : Char) (p : Projectile) : Projectile × Char × Char × Bool :=
  if p.ownerIsPlayer && p.rect.colliderect en.rect then
    ({ p with alive := false }, pl, receive_hit en p.damage p.knockback pl, true)
  else if !p.ownerIsPlayer && p.rect.colliderect pl.rect then
    ({ p with alive := false }, receive_hit pl p.damage p.knockback en, en, true)
  else (p, pl, en, false)

/-- the projectile-vs-entity loop of `main_game`: each projectile is
processed in order and removed from the list once not alive; also returns
the projectiles that fired a hit. -/
def proj_collide_phase : Char → Char → List Projectile →
    List Projectile × Char × Char × List Projectile
  | pl, en, [] => ([], pl, en, [])
  | pl, en, p :: ps =>
    let s := proj_step pl en p
    let rest := proj_collide_phase s.2.1 s.2.2.1 ps
    ((if s.1.alive then s.1 :: rest.1 else rest.1),
     rest.2.1, rest.2.2.1,
     (if s.2.2.2 then p :: rest.2.2.2 else rest.2.2.2))

/-- the projectile update loop of `main_game`: move every projectile, then
drop the ones that are dead or far off the playfield. -/
def proj_update_phase (ps : List Projectile) : List Projectile :=
  (ps.map Projectile.update).filter
    (fun p => p.alive && !(p.rect.right < -100 || p.rect.left > WIDTH + 100))

/-! ## Decision Engine (`ai.SimpleAI.decide`)

`random.random()` draws are threaded as an explicit list of rationals,
popped in source order; exhaustion yields `1`, which fails every
`random() < p` test. `random.randint(15, 40)` is the argument `rint`. -/

/-- the AI's intent record (`self.action`). -/
structure Action where
  move : ℤ
  jump : Bool
  light : Bool
  heavy : Bool
  special : Bool
deriving DecidableEq, Repr

/-- draw one `random.random()` sample from the threaded list. -/
def pop : List ℚ → ℚ × List ℚ
  | [] => (1, [])
  | r :: rs => (r, rs)

/-- `SimpleAI.update`: decrement the cooldown when positive. -/
def ai_update_cool (cool : ℤ) : ℤ :=
  if cool > 0 then cool - 1 else cool

/-- the projectile-avoidance loop of `decide`: scan the projectiles in
order; a projectile qualifies when it is not owned by the AI's character
and is within 40 vertical and 180 horizontal units; for each qualifying
projectile draw the 60% dodge roll, and on success draw the 40% jump roll,
yield the move (toward the projectile's side: `-1` when the projectile's
center is left of the character's, else `1`) and break; on roll failure the
loop keeps scanning. `self_is_player` says which side the AI's character
is on. -/
def dodge_scan (self_is_player : Bool) (c : Char) :
    List Projectile → List ℚ → Option (ℤ × Bool) × List ℚ
  | [], rolls => (none, rolls)
  | p :: ps, rolls =>
    if p.ownerIsPlayer ≠ self_is_player ∧
        |p.rect.centery - c.rect.centery| < 40 ∧
        |p.rect.centerx - c.rect.centerx| < 180 then
      let d := pop rolls
      if d.1 < 3/5 then
        let mv : ℤ := if p.rect.centerx < c.rect.centerx then -1 else 1
        let j := pop d.2
        (some (mv, j.1 < 2/5), j.2)
      else dodge_scan self_is_player c ps d.2
    else dodge_scan self_is_player c ps rolls

/-- the trailing retreat override of `decide`: when `percent > 120`, a 50%
roll redirects the movement away from the target and a further 60% roll
forces a jump; attack flags are unchanged. -/
def retreat_override (c : Char) (dist_x : ℤ) (move : ℤ) (jump : Bool)
    (lgt hvy spc : Bool) (cool : ℤ) (rolls : List ℚ) : Action × ℤ × List ℚ :=
  if c.percent > 120 then
    let r := pop rolls
    if r.1 < 1/2 then
      let mv : ℤ := if dist_x > 0 then -1 else 1
      let j := pop r.2
      (⟨mv, if j.1 < 3/5 then true else jump, lgt, hvy, spc⟩, cool, j.2)
    else (⟨move, jump, lgt, hvy, spc⟩, cool, r.2)
  else (⟨move, jump, lgt, hvy, spc⟩, cool, rolls)

/-- the successful-decision branch of `decide` (entered when `cool ≤ 0` and
the 18% activation roll passed): reset `cool` to `rint`, run the dodge
scan, then the range-based behavior, then the retreat override. -/
def decide_active (c target : Char) (projs : List Projectile)
    (self_is_player : Bool) (rint : ℤ) (rolls : List ℚ) : Action × ℤ × List ℚ :=
  let cool := rint
  let dist_x := target.rect.centerx - c.rect.centerx
  let dist := |dist_x|
  let d := dodge_scan self_is_player c projs rolls
  let mj : ℤ × Bool × ℤ :=
    match d.1 with
    | some (mv, j) => (mv, j, cool + 10)
    | none => (0, false, cool)
  let move := mj.1
  let jump := mj.2.1
  let cool := mj.2.2
  let rolls := d.2
  if dist > 220 then
    let move : ℤ := if dist_x > 0 then 1 else -1
    let r := pop rolls
    retreat_override c dist_x move jump false false (r.1 < 1/5) cool r.2
  else if dist > 120 then
    let move : ℤ := if dist_x > 0 then 1 else -1
    let r := pop rolls
    if r.1 < 7/20 then
      retreat_override c dist_x move jump false false true cool r.2
    else
      let r2 := pop r.2
      retreat_override c dist_x move jump false (r2.1 < 2/5) false cool r2.2
  else
    let r := pop rolls
    let lh : Bool × Bool × List ℚ :=
      if r.1 < 3/5 then (true, false, r.2)
      else
        let r2 := pop r.2
        (false, r2.1 < 3/10, r2.2)
    let r3 := pop lh.2.2
    let jump := if r3.1 < 1/5 then true else jump
    retreat_override c dist_x move jump lh.1 lh.2.1 false cool r3.2

/-- the default branch of `decide`: face the opponent when more than 30
units away, with a 2% reflexive light attack. -/
def decide_default (c target : Char) (cool : ℤ) (rolls : List ℚ) :
    Action × ℤ × List ℚ :=
  let move : ℤ :=
    if |target.rect.centerx - c.rect.centerx| > 30 then
      (if target.rect.centerx > c.rect.centerx then 1 else -1)
    else 0
  let r := pop rolls
  (⟨move, false, r.1 < 1/50, false, false⟩, cool, r.2)

/-- `SimpleAI.decide`. The activation roll is drawn only when `cool ≤ 0`
(Python short-circuit `self.cool <= 0 and random.random() < 0.18`).
Returns the intent, the new `cool`, and the remaining draws. -/
def decide (c target : Char) (projs : List Projectile) (self_is_player : Bool)
    (cool : ℤ) (rint : ℤ) (rolls : List ℚ) : Action × ℤ × List ℚ :=
  if cool ≤ 0 then
    let r0 := pop rolls
    if r0.1 < 9/50 then decide_active c target projs self_is_player rint r0.2
    else decide_default c target cool r0.2
  else decide_default c target cool rolls

/-! ## Concrete entities for witnesses and counterexamples -/

/-- `Character.__init__` defaults (base class), at a given rectangle. -/
def init_char (r : Rect) : Char :=
  { rect := r, vel := ⟨0, 0⟩, speed := 4, jump_strength := -14,
    on_ground := false, facing := 1, percent := 0, weight := 1,
    active_attacks := [], last_attack_time := 0, attack_cooldown := 300,
    stocks := 3, current_state := .idle, has_attack_anim := false,
    has_special_anim := false }

/-- `Boxer.__init__` overrides. -/
def Boxer_init (r : Rect) : Char :=
  { init_char r with speed := 5, jump_strength := -13, weight := 19/20,
                     attack_cooldown := 180 }

/-- `Ninja.__init__` overrides. -/
def Ninja_init (r : Rect) : Char :=
  { init_char r with speed := 11/2, jump_strength := -15, weight := 9/10,
                     attack_cooldown := 220 }

/-- `Assassin.__init__` overrides. -/
def Assassin_init (r : Rect) : Char :=
  { init_char r with speed := 6, jump_strength := -16, weight := 4/5,
                     attack_cooldown := 200 }

/-- `Priest.__init__` overrides. -/
def Priest_init (r : Rect) : Char :=
  { init_char r with speed := 19/5, jump_strength := -25/2, weight := 21/20,
                     attack_cooldown := 320 }

/-! # Claims -/

/-! ## C1 — the weight-1, percent-0, baseKnockback-10 scenario

`receive_hit` adds the hit's damage to `percent` *before* computing the
impulse, so the horizontal impulse is `10 * (1 + damage/100)`, not `10`;
the claim's `+10` / `-6` figures are exact only for `damage = 0`. -/

/-- C1, counterexample: entity at the `__init__` defaults (weight 1,
percent 0) hit for damage 10 with baseKnockback 10 from a source strictly
to its left gains horizontal velocity `11`, not `10` (and percent still
equals the damage). -/
theorem C1_scenario_counterexample :
    (init_char ⟨468, 0, 64, 80⟩).weight = 1 ∧
    (init_char ⟨468, 0, 64, 80⟩).percent = 0 ∧
    (init_char ⟨68, 0, 64, 80⟩).rect.centerx < (init_char ⟨468, 0, 64, 80⟩).rect.centerx ∧
    (receive_hit (init_char ⟨468, 0, 64, 80⟩) 10 10 (init_char ⟨68, 0, 64, 80⟩)).vel.x
      = (init_char ⟨468, 0, 64, 80⟩).vel.x + 11 ∧
    (receive_hit (init_char ⟨468, 0, 64, 80⟩) 10 10 (init_char ⟨68, 0, 64, 80⟩)).vel.x
      ≠ (init_char ⟨468, 0, 64, 80⟩).vel.x + 10 := by
  refine ⟨rfl, rfl, by decide, ?_, ?_⟩ <;>
    norm_num [receive_hit, kb_force, init_char, Rect.centerx]

/-- C1 (amended): for an entity with weight 1 and percent 0 hit with
baseKnockback 10 by a source strictly to its left, `receive_hit` adds
`10 * (1 + d/100)` to the horizontal velocity and subtracts
`6 * (1 + d/100)` from the vertical velocity, where `d` is the hit's
damage (so exactly `+10`/`-6` only when `d = 0`), and sets `percent = d`. -/
theorem C1_scenario (c source : Char) (d : ℚ)
    (hw : c.weight = 1) (hp : c.percent = 0)
    (hsrc : source.rect.centerx < c.rect.centerx) :
    (receive_hit c d 10 source).vel.x = c.vel.x + 10 * (1 + d / 100) ∧
    (receive_hit c d 10 source).vel.y = c.vel.y - 6 * (1 + d / 100) ∧
    (receive_hit c d 10 source).percent = d := by
  have hdir : c.rect.centerx > source.rect.centerx := hsrc
  simp only [receive_hit, kb_force, hw, hp, zero_add, if_pos hdir]
  have hmax : max ((1:ℚ)/2) 1 = 1 := by norm_num
  rw [hmax]
  refine ⟨by ring, by ring, trivial⟩

/-- C1, witness: the amended scenario evaluated at damage 6. -/
theorem C1_scenario_witness :
    (receive_hit (init_char ⟨468, 0, 64, 80⟩) 6 10 (init_char ⟨68, 0, 64, 80⟩)).vel.x
      = (init_char ⟨468, 0, 64, 80⟩).vel.x + 10 * (1 + 6 / 100) ∧
    (receive_hit (init_char ⟨468, 0, 64, 80⟩) 6 10 (init_char ⟨68, 0, 64, 80⟩)).vel.y
      = (init_char ⟨468, 0, 64, 80⟩).vel.y - 6 * (1 + 6 / 100) ∧
    (receive_hit (init_char ⟨468, 0, 64, 80⟩) 6 10 (init_char ⟨68, 0, 64, 80⟩)).percent = 6 :=
  C1_scenario (init_char ⟨468, 0, 64, 80⟩) (init_char ⟨68, 0, 64, 80⟩) 6 rfl rfl (by decide)

/-! ## C2 — percent monotonicity

The claim exempts only KO handling, but `Priest.special_attack`
(`Characters.py:419-428`) is a self-heal: it *decreases* `percent` by up
to 12 outside any KO path. Every other modelled operation is indeed
non-decreasing on `percent`. -/

/-- C2, counterexample: a Priest at percent 12 whose special is off
cooldown heals to percent 0 — an operation other than KO handling that
decreases percent. -/
theorem C2_monotone_counterexample :
    (Priest_special_attack { Priest_init ⟨468, 0, 64, 80⟩ with percent := 12 } 2000).2.percent
        = 0 ∧
    (Priest_special_attack { Priest_init ⟨468, 0, 64, 80⟩ with percent := 12 } 2000).2.percent
        < { Priest_init ⟨468, 0, 64, 80⟩ with percent := 12 }.percent := by
  constructor <;> norm_num [Priest_special_attack, Priest_init, init_char, set_special_anim]

/-- C2 (amended): within a match, `percent` is monotonically non-decreasing
under every modelled simulation operation — `receive_hit` (with
non-negative damage), physics integration, input application, platform
collision, and every attack variant — except explicit KO handling
(`on_ko` / the respawn path) and the Priest's self-heal special. -/
theorem C2_monotone (d : ℚ) (hd : 0 ≤ d) :
    (∀ c base_kb source, c.percent ≤ (receive_hit c d base_kb source).percent) ∧
    (∀ c gravity, (update_physics c gravity).percent = c.percent) ∧
    (∀ c move jump, (apply_input c move jump).percent = c.percent) ∧
    (∀ plats e, (handle_platform_collisions plats e).percent = e.percent) ∧
    (∀ c now, (light_attack c now).2.percent = c.percent) ∧
    (∀ c now, (heavy_attack c now).2.percent = c.percent) ∧
    (∀ c now, (special_attack c now).2.percent = c.percent) ∧
    (∀ c now, (Ninja_special_attack c now).2.percent = c.percent) ∧
    (∀ c now, (Assassin_special_attack c now).2.percent = c.percent) ∧
    (∀ c now, (Boxer_light_attack c now).2.percent = c.percent) ∧
    (∀ c now sp, (Mage_special_attack c now sp).2.percent = c.percent) := by
  have hfold : ∀ (plats : List Rect) (e : Char),
      (handle_platform_collisions plats e).percent = e.percent := by
    intro plats e
    unfold handle_platform_collisions
    suffices h : ∀ (l : List Rect) (a : Char), (l.foldl collide_step a).percent = a.percent by
      exact h plats _
    intro l
    induction l with
    | nil => intro a; rfl
    | cons p ps ih =>
      intro a
      rw [List.foldl_cons, ih]
      simp only [collide_step]
      split_ifs <;> rfl
  have hrecv : ∀ (c : Char) (base_kb : ℚ) (source : Char),
      c.percent ≤ (receive_hit c d base_kb source).percent := by
    intro c base_kb source
    simp only [receive_hit]
    linarith
  refine ⟨hrecv, ?_, ?_, hfold, ?_, ?_, ?_, ?_, ?_, ?_, ?_⟩
  · intro c gravity
    simp only [update_physics]
    split <;> rfl
  · intro c move jump
    simp only [apply_input]
    split_ifs <;> rfl
  · intro c now
    simp only [light_attack, set_attack_anim]
    split_ifs <;> rfl
  · intro c now
    simp only [heavy_attack, set_attack_anim]
    split_ifs <;> rfl
  · intro c now
    simp only [special_attack, set_special_anim]
    split_ifs <;> rfl
  · intro c now
    simp only [Ninja_special_attack, set_special_anim]
    split_ifs <;> rfl
  · intro c now
    simp only [Assassin_special_attack, set_special_anim]
    split_ifs <;> rfl
  · intro c now
    simp only [Boxer_light_attack, set_attack_anim]
    split_ifs <;> rfl
  · intro c now sp
    simp only [Mage_special_attack]
    split_ifs <;> rfl

/-- C2, witness: the amended monotonicity at damage 6, applied to a
concrete hit. -/
theorem C2_monotone_witness :
    (init_char ⟨468, 0, 64, 80⟩).percent ≤
      (receive_hit (init_char ⟨468, 0, 64, 80⟩) 6 10 (init_char ⟨68, 0, 64, 80⟩)).percent :=
  (C2_monotone 6 (by norm_num)).1 (init_char ⟨468, 0, 64, 80⟩) 10 (init_char ⟨68, 0, 64, 80⟩)

/-! ## C6 — knockback direction and monotonicity

The direction and the strict growth in accumulated percent and in
`baseKnockback` hold, but "strictly decreases with weight" fails below the
clamp floor: `max(0.5, weight)` makes the impulse *constant* for all
weights ≤ 0.5. -/

/-- C6, counterexample: two entities differing only in weight (1/5 versus
2/5, both under the 0.5 clamp) receive identical impulses from the same
hit — the magnitude does not strictly decrease with weight. -/
theorem C6_knockback_counterexample :
    ((1:ℚ)/5) < 2/5 ∧
    (receive_hit { init_char ⟨468, 0, 64, 80⟩ with weight := 1/5 } 0 10
        (init_char ⟨68, 0, 64, 80⟩)).vel.x = 20 ∧
    (receive_hit { init_char ⟨468, 0, 64, 80⟩ with weight := 2/5 } 0 10
        (init_char ⟨68, 0, 64, 80⟩)).vel.x = 20 := by
  refine ⟨by norm_num, ?_, ?_⟩ <;>
    norm_num [receive_hit, kb_force, init_char, Rect.centerx]

/-- C6 (amended): for `receive_hit` with positive baseKnockback and
non-negative accumulated percent, the horizontal impulse points away from
the source's horizontal center (when the centers differ); the impulse
magnitude `kb_force` strictly increases with the accumulated percent and
with baseKnockback, strictly decreases with weight *above the 0.5 clamp
floor*, and is constant in weight at or below the floor. -/
theorem C6_knockback :
    (∀ c source d b, 0 < b → 0 ≤ c.percent + d →
      (source.rect.centerx < c.rect.centerx →
        c.vel.x < (receive_hit c d b source).vel.x) ∧
      (c.rect.centerx < source.rect.centerx →
        (receive_hit c d b source).vel.x < c.vel.x)) ∧
    (∀ b p1 p2 w, 0 < b → 0 ≤ p1 → p1 < p2 → kb_force b p1 w < kb_force b p2 w) ∧
    (∀ b1 b2 p w, 0 ≤ p → b1 < b2 → kb_force b1 p w < kb_force b2 p w) ∧
    (∀ b p w1 w2, 0 < b → 0 ≤ p → 1/2 ≤ w1 → w1 < w2 →
      kb_force b p w2 < kb_force b p w1) ∧
    (∀ b p w1 w2, w1 ≤ 1/2 → w2 ≤ 1/2 → kb_force b p w1 = kb_force b p w2) := by
  have hmaxpos : ∀ w : ℚ, 0 < max (1/2) w := fun w =>
    lt_of_lt_of_le (by norm_num) (le_max_left _ _)
  have hforce : ∀ b p w : ℚ, 0 < b → 0 ≤ p → 0 < kb_force b p w := by
    intro b p w hb hp
    have hnum : 0 < b * (1 + p / 100) := by positivity
    exact div_pos hnum (hmaxpos w)
  refine ⟨?_, ?_, ?_, ?_, ?_⟩
  · intro c source d b hb hp
    have hf := hforce b (c.percent + d) c.weight hb hp
    constructor
    · intro hdir
      have h : c.rect.centerx > source.rect.centerx := hdir
      simp only [receive_hit, if_pos h]
      nlinarith [hf]
    · intro hdir
      have h : ¬(c.rect.centerx > source.rect.centerx) := not_lt.mpr (le_of_lt hdir)
      simp only [receive_hit, if_neg h]
      nlinarith [hf]
  · intro b p1 p2 w hb hp1 hlt
    unfold kb_force
    have h1 : b * (1 + p1 / 100) < b * (1 + p2 / 100) := by nlinarith
    exact div_lt_div_of_pos_right h1 (hmaxpos w)
  · intro b1 b2 p w hp hlt
    unfold kb_force
    have h1 : b1 * (1 + p / 100) < b2 * (1 + p / 100) := by nlinarith
    exact div_lt_div_of_pos_right h1 (hmaxpos w)
  · intro b p w1 w2 hb hp hw1 hlt
    unfold kb_force
    rw [max_eq_right hw1, max_eq_right (le_trans hw1 (le_of_lt hlt))]
    have hnum : 0 < b * (1 + p / 100) := by positivity
    exact div_lt_div_of_pos_left hnum (lt_of_lt_of_le (by norm_num) hw1) hlt
  · intro b p w1 w2 hw1 hw2
    unfold kb_force
    rw [max_eq_left hw1, max_eq_left hw2]

/-- C6, witness: the amended statement applied at concrete values
(direction away from a source on the left; percent 0 < 50; baseKnockback
6 < 10; weights 1 < 3/2 above the clamp; weights 1/5 and 2/5 below it). -/
theorem C6_knockback_witness :
    ((init_char ⟨468, 0, 64, 80⟩).vel.x <
      (receive_hit (init_char ⟨468, 0, 64, 80⟩) 6 10 (init_char ⟨68, 0, 64, 80⟩)).vel.x) ∧
    kb_force 10 0 1 < kb_force 10 50 1 ∧
    kb_force 6 0 1 < kb_force 10 0 1 ∧
    kb_force 10 0 (3/2) < kb_force 10 0 1 ∧
    kb_force 10 0 (1/5) = kb_force 10 0 (2/5) := by
  refine ⟨?_, ?_, ?_, ?_, ?_⟩
  · exact ((C6_knockback.1 (init_char ⟨468, 0, 64, 80⟩) (init_char ⟨68, 0, 64, 80⟩) 6 10
      (by norm_num) (by norm_num [init_char])).1 (by decide))
  · exact C6_knockback.2.1 10 0 50 1 (by norm_num) (by norm_num) (by norm_num)
  · exact C6_knockback.2.2.1 6 10 0 1 (by norm_num) (by norm_num)
  · exact C6_knockback.2.2.2.1 10 0 1 (3/2) (by norm_num) (by norm_num) (by norm_num)
      (by norm_num)
  · exact C6_knockback.2.2.2.2 10 0 (1/5) (2/5) (by norm_num) (by norm_num)

/-! ## C4 — platform landing detection -/

/-- C4: `handle_platform_collisions` resets `on_ground` first (with no
platforms it stays `false`, and in general it is the platform fold over
the reset entity); for a single platform step starting un-grounded, a
landing happens *exactly* when the rectangle overlap, non-negative
vertical velocity, and previous-frame-bottom tolerance conditions all
hold; a landing snaps the bottom to the platform top and zeroes the
vertical velocity; an entity moving upward (from below), or one whose
previous-frame bottom was strictly below the tolerance band (side
approach), is left unchanged, so `onGround` is never set. -/
theorem C4_landing :
    (∀ e, (handle_platform_collisions [] e).on_ground = false) ∧
    (∀ plats e, handle_platform_collisions plats e =
        plats.foldl collide_step { e with on_ground := false }) ∧
    (∀ e p, e.on_ground = false →
      ((collide_step e p).on_ground = true ↔
        (e.rect.colliderect p = true ∧ 0 ≤ e.vel.y ∧
          (e.rect.bottom : ℚ) - e.vel.y ≤ (p.top : ℚ) + 6))) ∧
    (∀ e p, e.rect.colliderect p = true → 0 ≤ e.vel.y →
      (e.rect.bottom : ℚ) - e.vel.y ≤ (p.top : ℚ) + 6 →
      (collide_step e p).rect.bottom = p.top ∧ (collide_step e p).vel.y = 0 ∧
        (collide_step e p).on_ground = true) ∧
    (∀ e p, e.vel.y < 0 → collide_step e p = e) ∧
    (∀ e p, (p.top : ℚ) + 6 < (e.rect.bottom : ℚ) - e.vel.y → collide_step e p = e) := by
  refine ⟨fun e => rfl, fun plats e => rfl, ?_, ?_, ?_, ?_⟩
  · intro e p he
    simp only [collide_step]
    split_ifs with h1 h2
    · simp only [true_iff]
      exact ⟨h1, h2.1, h2.2⟩
    · simp only [he]
      constructor
      · intro h
        exact absurd h (by simp)
      · intro hcond
        exact absurd ⟨hcond.2.1, hcond.2.2⟩ h2
    · simp only [he]
      constructor
      · intro h
        exact absurd h (by simp)
      · intro hcond
        exact absurd hcond.1 h1
  · intro e p hc hy hb
    simp only [collide_step, if_pos hc, if_pos (And.intro hy hb)]
    refine ⟨?_, by simp, by simp⟩
    simp only [Rect.setBottom, Rect.bottom]
    omega
  · intro e p hy
    simp only [collide_step]
    split_ifs with h1 h2
    · exact absurd h2.1 (not_le.mpr hy)
    · rfl
    · rfl
  · intro e p hb
    simp only [collide_step]
    split_ifs with h1 h2
    · exact absurd h2.2 (not_le.mpr hb)
    · rfl
    · rfl

/-- C4, witness: a concrete entity falling at velocity 5 whose bottom is 4
units into the ground platform lands: grounded, bottom snapped to the
platform top, vertical velocity zero; and the same entity moving upward is
untouched. -/
theorem C4_landing_witness :
    ((collide_step { init_char ⟨100, 444, 64, 80⟩ with vel := ⟨0, 5⟩ }
        ⟨0, 520, 1000, 80⟩).rect.bottom = (520 : ℤ) ∧
      (collide_step { init_char ⟨100, 444, 64, 80⟩ with vel := ⟨0, 5⟩ }
        ⟨0, 520, 1000, 80⟩).vel.y = 0 ∧
      (collide_step { init_char ⟨100, 444, 64, 80⟩ with vel := ⟨0, 5⟩ }
        ⟨0, 520, 1000, 80⟩).on_ground = true) ∧
    collide_step { init_char ⟨100, 444, 64, 80⟩ with vel := ⟨0, -5⟩ }
        ⟨0, 520, 1000, 80⟩ =
      { init_char ⟨100, 444, 64, 80⟩ with vel := ⟨0, -5⟩ } := by
  constructor
  · exact C4_landing.2.2.2.1 { init_char ⟨100, 444, 64, 80⟩ with vel := ⟨0, 5⟩ }
      ⟨0, 520, 1000, 80⟩ (by decide) (by norm_num)
      (by norm_num [init_char, Rect.bottom, Rect.top])
  · exact C4_landing.2.2.2.2.1 { init_char ⟨100, 444, 64, 80⟩ with vel := ⟨0, -5⟩ }
      ⟨0, 520, 1000, 80⟩ (by norm_num)

/-! ## C5 — the stock/KO lifecycle -/

lemma Match.get_set_self (m : Match) (who : Side) (c : Char) :
    (m.set who c).get who = c := by
  cases who <;> rfl

lemma Match.get_set_opp (m : Match) (who : Side) (c : Char) :
    (m.set who c).get who.other = m.get who.other := by
  cases who <;> rfl

lemma Match.set_keeps_game_over (m : Match) (who : Side) (c : Char) :
    (m.set who c).game_over = m.game_over := by
  cases who <;> rfl

lemma Match.set_keeps_winner (m : Match) (who : Side) (c : Char) :
    (m.set who c).winner = m.winner := by
  cases who <;> rfl

/-- the match-ending branch of `check_ko`: out of bounds with the last
stock means the other side wins and nothing else changes. -/
lemma check_ko_ends_match (m : Match) (who : Side) (sx : ℤ)
    (hoob : oob (m.get who) = true) (hst : (m.get who).stocks ≤ 1) :
    check_ko m who sx = { m with winner := some who.other, game_over := true } := by
  simp only [check_ko, hoob, if_true, if_pos hst]

/-- C5: for an entity crossing the out-of-bounds threshold, `check_ko`
(a) with `stocks ≤ 1` ends the match immediately — the other side is the
winner, `gameOver` is set, and nothing else changes (no respawn); (b) with
`stocks = 3` respawns that entity at its spawn point with zero velocity,
`percent = 0` and `stocks = 2`, leaving the opponent and the match flags
untouched. -/
theorem C5_stock_lifecycle :
    (∀ m who sx, oob (m.get who) = true → (m.get who).stocks ≤ 1 →
      check_ko m who sx = { m with winner := some who.other, game_over := true }) ∧
    (∀ m who sx, oob (m.get who) = true → (m.get who).stocks = 3 →
      ((check_ko m who sx).get who).stocks = 2 ∧
      ((check_ko m who sx).get who).percent = 0 ∧
      ((check_ko m who sx).get who).vel = ⟨0, 0⟩ ∧
      ((check_ko m who sx).get who).rect.centerx = sx ∧
      (check_ko m who sx).game_over = m.game_over ∧
      (check_ko m who sx).winner = m.winner ∧
      (check_ko m who sx).get who.other = m.get who.other) := by
  constructor
  · intro m who sx hoob hst
    exact check_ko_ends_match m who sx hoob hst
  · intro m who sx hoob hst
    have hnot : ¬((m.get who).stocks ≤ 1) := by omega
    have hck : check_ko m who sx = m.set who (respawn (m.get who) sx) := by
      simp only [check_ko, hoob, if_true, if_neg hnot]
    have hr : (check_ko m who sx).get who = respawn (m.get who) sx := by
      rw [hck, Match.get_set_self]
    have hstocks : (respawn (m.get who) sx).stocks = 2 := by
      simp only [respawn, on_ko]
      have : ¬((m.get who).stocks - 1 ≤ 0) := by omega
      simp only [this, if_false]
      omega
    have hcenter : (respawn (m.get who) sx).rect.centerx = sx := by
      simp only [respawn, on_ko, Rect.setCenter, Rect.centerx]
      split <;> · simp only []; omega
    refine ⟨?_, ?_, ?_, ?_, ?_, ?_, ?_⟩
    · rw [hr]; exact hstocks
    · rw [hr]; rfl
    · rw [hr]; rfl
    · rw [hr]; exact hcenter
    · rw [hck, Match.set_keeps_game_over]
    · rw [hck, Match.set_keeps_winner]
    · rw [hck, Match.get_set_opp]

/-- C5, witness: a player at `(100, 900)` (below the KO line) with 1 stock
ends the match with the enemy as winner; with 3 stocks it respawns at
x = 250 with stocks 2, percent 0, zero velocity. -/
theorem C5_stock_lifecycle_witness :
    (check_ko ⟨{ init_char ⟨100, 900, 64, 80⟩ with stocks := 1 },
        init_char ⟨700, 100, 64, 80⟩, [], false, none⟩ .player 250 =
      { player := { init_char ⟨100, 900, 64, 80⟩ with stocks := 1 },
        enemy := init_char ⟨700, 100, 64, 80⟩, projectiles := [],
        game_over := true, winner := some .enemy }) ∧
    ((check_ko ⟨init_char ⟨100, 900, 64, 80⟩,
        init_char ⟨700, 100, 64, 80⟩, [], false, none⟩ .player 250).player.stocks = 2 ∧
      (check_ko ⟨init_char ⟨100, 900, 64, 80⟩,
        init_char ⟨700, 100, 64, 80⟩, [], false, none⟩ .player 250).player.percent = 0 ∧
      (check_ko ⟨init_char ⟨100, 900, 64, 80⟩,
        init_char ⟨700, 100, 64, 80⟩, [], false, none⟩ .player 250).player.rect.centerx = 250) := by
  constructor
  · exact C5_stock_lifecycle.1 ⟨{ init_char ⟨100, 900, 64, 80⟩ with stocks := 1 },
      init_char ⟨700, 100, 64, 80⟩, [], false, none⟩ .player 250 (by decide) (by decide)
  · have h := C5_stock_lifecycle.2 ⟨init_char ⟨100, 900, 64, 80⟩,
      init_char ⟨700, 100, 64, 80⟩, [], false, none⟩ .player 250 (by decide) (by decide)
    exact ⟨h.1, h.2.1, h.2.2.2.1⟩

/-! ## C9 — winner uniqueness and terminality

`check_ko` has no `game_over` guard of its own, and the tick calls it for
the player and then for the enemy. On a tick where *both* entities are
out of bounds with their last stock, the player's check sets
`winner = enemy` and `gameOver = true`, and then the enemy's check
overwrites `winner = player` — the winner recorded at the moment
`gameOver` became true changes within that same tick. Across later ticks
the `if not game_over:` guard makes the state terminal. -/

/-- `check_ko` does exactly one of three things: nothing, a respawn of the
checked side, or the match-ending transition. -/
lemma check_ko_cases (m : Match) (who : Side) (sx : ℤ) :
    check_ko m who sx = m ∨
    check_ko m who sx = m.set who (respawn (m.get who) sx) ∨
    check_ko m who sx = { m with winner := some who.other, game_over := true } := by
  unfold check_ko
  by_cases h : oob (m.get who) = true
  · by_cases h2 : (m.get who).stocks ≤ 1
    · right; right
      simp only [h, if_true, if_pos h2]
    · right; left
      simp only [h, if_true, if_neg h2]
  · left
    have h0 : oob (m.get who) = false := by
      cases hx : oob (m.get who)
      · rfl
      · exact absurd hx h
    simp only [h0]
    rfl

/-- C9, counterexample: both entities out of bounds with 1 stock. After
the player's `check_ko`, `gameOver` is true with winner `enemy`; after the
full KO phase of the same tick the winner has changed to `player`. -/
theorem C9_winner_counterexample :
    (check_ko ⟨{ init_char ⟨100, 900, 64, 80⟩ with stocks := 1 },
        { init_char ⟨700, 900, 64, 80⟩ with stocks := 1 }, [], false, none⟩
        .player 250).game_over = true ∧
    (check_ko ⟨{ init_char ⟨100, 900, 64, 80⟩ with stocks := 1 },
        { init_char ⟨700, 900, 64, 80⟩ with stocks := 1 }, [], false, none⟩
        .player 250).winner = some .enemy ∧
    (ko_phase ⟨{ init_char ⟨100, 900, 64, 80⟩ with stocks := 1 },
        { init_char ⟨700, 900, 64, 80⟩ with stocks := 1 }, [], false, none⟩).winner
      = some .player ∧
    some Side.player ≠ some Side.enemy := by
  refine ⟨by decide, by decide, by decide, by decide⟩

/-- C9 (amended): whenever the KO phase turns `gameOver` on, a winner is
set; once `gameOver` is true the tick guard skips the whole simulation
step, so `winner` never changes on a later tick; but within the tick in
which both entities cross the threshold on their last stock, the enemy's
check (running second, unguarded) overwrites the winner the player's
check just set: such a tick always ends with winner `player`. -/
theorem C9_winner :
    (∀ m who sx, m.game_over = false → (check_ko m who sx).game_over = true →
      (check_ko m who sx).winner = some who.other) ∧
    (∀ m, m.game_over = false → (ko_phase m).game_over = true →
      (ko_phase m).winner = some Side.player ∨ (ko_phase m).winner = some Side.enemy) ∧
    (∀ f m, m.game_over = true → tick_guard f m = m) ∧
    (∀ m, oob m.player = true → m.player.stocks ≤ 1 →
      oob m.enemy = true → m.enemy.stocks ≤ 1 →
      (check_ko m .player 250).winner = some Side.enemy ∧
      (check_ko m .player 250).game_over = true ∧
      (ko_phase m).winner = some Side.player) := by
  have hko : ∀ (m : Match) (who : Side) (sx : ℤ), m.game_over = false →
      (check_ko m who sx).game_over = true →
      (check_ko m who sx).winner = some who.other := by
    intro m who sx hgo hset
    rcases check_ko_cases m who sx with h | h | h
    · rw [h, hgo] at hset
      exact absurd hset (by simp)
    · rw [h, Match.set_keeps_game_over, hgo] at hset
      exact absurd hset (by simp)
    · rw [h]
  refine ⟨hko, ?_, ?_, ?_⟩
  · intro m hgo hset
    unfold ko_phase at hset ⊢
    rcases check_ko_cases (check_ko m .player 250) .enemy 750 with h | h | h
    · right
      rw [h] at hset ⊢
      have hw := hko m .player 250 hgo hset
      rw [hw]
      rfl
    · right
      rw [h, Match.set_keeps_game_over] at hset
      rw [h, Match.set_keeps_winner]
      have hw := hko m .player 250 hgo hset
      rw [hw]
      rfl
    · left
      rw [h]
      rfl
  · intro f m hgo
    simp only [tick_guard, hgo, if_true]
  · intro m hoobp hstp hoobe hste
    have h1 : check_ko m .player 250 =
        { m with winner := some Side.enemy, game_over := true } := by
      have := check_ko_ends_match m .player 250 hoobp hstp
      simpa using this
    have h2 : ko_phase m = { check_ko m .player 250 with
        winner := some Side.player, game_over := true } := by
      unfold ko_phase
      have := check_ko_ends_match (check_ko m .player 250) .enemy 750
        (by rw [h1]; exact hoobe) (by rw [h1]; exact hste)
      simpa using this
    refine ⟨by rw [h1], by rw [h1], by rw [h2]⟩

/-- C9, witness: the amended statement on the concrete double-KO match:
guarded tick is the identity once over, and the double-KO tick ends with
winner `player` after first recording `enemy`. -/
theorem C9_winner_witness :
    tick_guard ko_phase ⟨init_char ⟨100, 100, 64, 80⟩, init_char ⟨700, 100, 64, 80⟩,
        [], true, some .player⟩ =
      ⟨init_char ⟨100, 100, 64, 80⟩, init_char ⟨700, 100, 64, 80⟩,
        [], true, some .player⟩ ∧
    (check_ko ⟨{ init_char ⟨100, 900, 64, 80⟩ with stocks := 1 },
        { init_char ⟨700, 900, 64, 80⟩ with stocks := 1 }, [], false, none⟩
        .player 250).winner = some Side.enemy ∧
    (ko_phase ⟨{ init_char ⟨100, 900, 64, 80⟩ with stocks := 1 },
        { init_char ⟨700, 900, 64, 80⟩ with stocks := 1 }, [], false, none⟩).winner
      = some Side.player := by
  have h := C9_winner.2.2.2 ⟨{ init_char ⟨100, 900, 64, 80⟩ with stocks := 1 },
      { init_char ⟨700, 900, 64, 80⟩ with stocks := 1 }, [], false, none⟩
      (by decide) (by decide) (by decide) (by decide)
  exact ⟨C9_winner.2.2.1 ko_phase _ rfl, h.1, h.2.2⟩

/-! ## C7 — cooldown gating of attack variants

Every attack variant called inside its cooldown window returns `None`
before mutating anything: no hitbox is appended and no projectile is
spawned, and the attempt is a silent no-op, not an error. The claim's
"exactly one hitbox" tally, however, fails for the Boxer's light combo:
one *successful* call already appends three hitboxes. -/

/-- C7, counterexample: a Boxer light attack at t=1000 (off cooldown)
followed by a second call at t=1100 (inside the 180ms window). The second
call is a no-op, but the tally of appended hitboxes is three — not the
"exactly one" the claim predicts for two calls within the window. -/
theorem C7_cooldown_counterexample :
    (Boxer_light_attack (Boxer_light_attack (Boxer_init ⟨0, 0, 64, 80⟩) 1000).2 1100).1
      = none ∧
    (Boxer_light_attack
        (Boxer_light_attack (Boxer_init ⟨0, 0, 64, 80⟩) 1000).2 1100).2.active_attacks.length
      = 3 ∧
    (3 : ℕ) ≠ 1 := by
  refine ⟨by decide, by decide, by decide⟩

/-- C7 (amended): each attack variant called inside its cooldown window
(measured against `lastAttackTime` with the variant's multiplier) returns
`None` and leaves the character entirely unchanged — appending no hitbox
and spawning no projectile — so two calls within one window produce
exactly one call's worth of hitboxes/projectiles (one hitbox for the
single-hit variants, three for the Boxer light combo, one projectile for
the Mage special), not two calls' worth. -/
theorem C7_cooldown :
    (∀ c now, now - c.last_attack_time < c.attack_cooldown →
      light_attack c now = (none, c)) ∧
    (∀ c now, now - c.last_attack_time < 13 * c.attack_cooldown / 10 →
      heavy_attack c now = (none, c)) ∧
    (∀ c now, now - c.last_attack_time < 9 * c.attack_cooldown / 10 →
      special_attack c now = (none, c)) ∧
    (∀ c now, now - c.last_attack_time < 400 →
      Ninja_special_attack c now = (none, c)) ∧
    (∀ c now, now - c.last_attack_time < 700 →
      Assassin_special_attack c now = (none, c)) ∧
    (∀ c now, now - c.last_attack_time < 1000 →
      Priest_special_attack c now = (none, c)) ∧
    (∀ c now, now - c.last_attack_time < c.attack_cooldown →
      Boxer_light_attack c now = (none, c)) ∧
    (∀ c now sp, now - c.last_attack_time < 500 →
      Mage_special_attack c now sp = (none, c)) ∧
    (∀ c now, ¬(now - c.last_attack_time < c.attack_cooldown) →
      (light_attack c now).2.active_attacks.length = c.active_attacks.length + 1 ∧
      (light_attack c now).2.last_attack_time = now) ∧
    (∀ c now, ¬(now - c.last_attack_time < c.attack_cooldown) →
      (Boxer_light_attack c now).2.active_attacks.length = c.active_attacks.length + 3 ∧
      (Boxer_light_attack c now).2.last_attack_time = now) := by
  refine ⟨?_, ?_, ?_, ?_, ?_, ?_, ?_, ?_, ?_, ?_⟩
  · intro c now h
    simp only [light_attack, if_pos h]
  · intro c now h
    simp only [heavy_attack, if_pos h]
  · intro c now h
    simp only [special_attack, if_pos h]
  · intro c now h
    simp only [Ninja_special_attack, if_pos h]
  · intro c now h
    simp only [Assassin_special_attack, if_pos h]
  · intro c now h
    simp only [Priest_special_attack, if_pos h]
  · intro c now h
    simp only [Boxer_light_attack, if_pos h]
  · intro c now sp h
    simp only [Mage_special_attack, if_pos h]
  · intro c now h
    simp only [light_attack, if_neg h, set_attack_anim]
    constructor
    · split <;> simp
    · split <;> rfl
  · intro c now h
    simp only [Boxer_light_attack, if_neg h, set_attack_anim]
    constructor
    · split <;> simp
    · split <;> rfl

/-- C7, witness: the second base-class light attack 100ms after a first
one (cooldown 300ms) is `None` and leaves the character unchanged, so the
hitbox tally of the two calls is that of the first call alone. -/
theorem C7_cooldown_witness :
    light_attack (light_attack (init_char ⟨0, 0, 64, 80⟩) 1000).2 1100 =
      (none, (light_attack (init_char ⟨0, 0, 64, 80⟩) 1000).2) ∧
    (light_attack (init_char ⟨0, 0, 64, 80⟩) 1000).2.active_attacks.length =
      (init_char ⟨0, 0, 64, 80⟩).active_attacks.length + 1 := by
  constructor
  · exact C7_cooldown.1 (light_attack (init_char ⟨0, 0, 64, 80⟩) 1000).2 1100 (by decide)
  · exact (C7_cooldown.2.2.2.2.2.2.2.2.1 (init_char ⟨0, 0, 64, 80⟩) 1000 (by decide)).1

/-! ## C8 — dead hitboxes and projectiles never act again

The hitbox loop guards every hit with `atk["alive"]`, and the per-tick
pruning keeps only live hitboxes; the projectile update loop drops dead
projectiles from the registry, and the collision loop removes a projectile
the moment it dies. Hence every hitbox that fires is alive at the moment
it fires; every projectile surviving either projectile phase is alive, so
a dead projectile is never in the list at the start of a later tick; and
when (as in every reachable tick) the collision phase starts from a list
of live projectiles, every projectile that triggers a `receive_hit` is
alive. -/

theorem C8_no_resurrection :
    (∀ ps, ∀ p ∈ proj_update_phase ps, p.alive = true) ∧
    (∀ pl en ps, ∀ p ∈ (proj_collide_phase pl en ps).1, p.alive = true) ∧
    (∀ pl en ps, (∀ p ∈ ps, p.alive = true) →
      ∀ p ∈ (proj_collide_phase pl en ps).2.2.2, p.alive = true) ∧
    (∀ l owner target, ∀ a ∈ (attack_scan l owner target).2.2, a.alive = true) ∧
    (∀ now l, ∀ a ∈ prune_attacks now l, a.alive = true ∧ now - a.time < 600) := by
  refine ⟨?_, ?_, ?_, ?_, ?_⟩
  · intro ps p hp
    rw [proj_update_phase, List.mem_filter] at hp
    have h2 := hp.2
    simp only [Bool.and_eq_true] at h2
    exact h2.1
  · intro pl en ps
    induction ps generalizing pl en with
    | nil => intro p hp; cases hp
    | cons q qs ih =>
      intro p hp
      simp only [proj_collide_phase] at hp
      by_cases halive : (proj_step pl en q).1.alive = true
      · rw [if_pos halive] at hp
        rcases List.mem_cons.mp hp with h | h
        · rw [h]; exact halive
        · exact ih _ _ p h
      · rw [if_neg halive] at hp
        exact ih _ _ p hp
  · intro pl en ps
    induction ps generalizing pl en with
    | nil => intro _ p hp; cases hp
    | cons q qs ih =>
      intro hall p hp
      simp only [proj_collide_phase] at hp
      by_cases hfire : (proj_step pl en q).2.2.2 = true
      · rw [if_pos hfire] at hp
        rcases List.mem_cons.mp hp with h | h
        · rw [h]
          exact hall q (List.mem_cons_self q qs)
        · exact ih _ _ (fun r hr => hall r (List.mem_cons_of_mem q hr)) p h
      · rw [if_neg hfire] at hp
        exact ih _ _ (fun r hr => hall r (List.mem_cons_of_mem q hr)) p hp
  · intro l owner target
    induction l generalizing target with
    | nil => intro a ha; cases ha
    | cons q qs ih =>
      intro a ha
      simp only [attack_scan] at ha
      by_cases hc : (q.rect.colliderect target.rect && q.alive) = true
      · rw [if_pos hc] at ha
        rcases List.mem_cons.mp ha with h | h
        · rw [h]
          simp only [Bool.and_eq_true] at hc
          exact hc.2
        · exact ih _ a h
      · rw [if_neg hc] at ha
        exact ih _ a ha
  · intro now l a ha
    rw [prune_attacks, List.mem_filter] at ha
    have h2 := ha.2
    simp only [Bool.and_eq_true, decide_eq_true_eq] at h2
    exact h2

/-- C8, witness: a two-projectile registry (one dead, one alive) after the
update phase holds only live projectiles; a connected (now dead) hitbox is
pruned while a fresh one survives and is alive; and the fired hitbox of a
concrete connecting scan is alive. -/
theorem C8_no_resurrection_witness :
    (∀ p ∈ proj_update_phase
        [⟨⟨10, 10, 12, 12⟩, ⟨5, 0⟩, true, 6, 6, false⟩,
         ⟨⟨40, 10, 12, 12⟩, ⟨5, 0⟩, true, 6, 6, true⟩], p.alive = true) ∧
    (∀ a ∈ prune_attacks 1100
        [⟨⟨0, 0, 20, 20⟩, 6, 6, 1000, false⟩, ⟨⟨0, 0, 20, 20⟩, 6, 6, 1000, true⟩],
      a.alive = true ∧ (1100 : ℤ) - a.time < 600) ∧
    (∀ a ∈ (attack_scan [⟨⟨0, 0, 200, 200⟩, 6, 6, 1000, true⟩]
        (init_char ⟨500, 0, 64, 80⟩) (init_char ⟨100, 0, 64, 80⟩)).2.2,
      a.alive = true) :=
  ⟨C8_no_resurrection.1 _,
   C8_no_resurrection.2.2.2.2 1100 _,
   C8_no_resurrection.2.2.2.1 _ _ _⟩

/-! ## C10 — Ninja/Assassin dash specials are pure teleports

On success (outside the cooldown window) the Ninja/Assassin special moves
`rect.x` by `60 * facing` / `80 * facing` directly — no velocity change —
and besides the position only `lastAttackTime`, `activeAttacks` (one new
hitbox at the shifted position) and the cosmetic `current_state` are
touched. -/

theorem C10_dash_specials :
    (∀ c now, 400 ≤ now - c.last_attack_time →
      (Ninja_special_attack c now).1 = some .melee ∧
      (Ninja_special_attack c now).2.rect = { c.rect with x := c.rect.x + 60 * c.facing } ∧
      (Ninja_special_attack c now).2.vel = c.vel ∧
      (Ninja_special_attack c now).2.last_attack_time = now ∧
      (Ninja_special_attack c now).2.active_attacks = c.active_attacks ++
        [⟨(if c.facing = 1 then
            (⟨c.rect.x + 60 * c.facing + c.rect.w, c.rect.y + c.rect.h / 2 - 12, 40, 24⟩ : Rect)
          else
            ⟨c.rect.x + 60 * c.facing - 40, c.rect.y + c.rect.h / 2 - 12, 40, 24⟩),
          12, 14, now, true⟩] ∧
      (Ninja_special_attack c now).2.current_state =
        (if c.has_special_anim then CState.special else c.current_state) ∧
      (Ninja_special_attack c now).2.speed = c.speed ∧
      (Ninja_special_attack c now).2.jump_strength = c.jump_strength ∧
      (Ninja_special_attack c now).2.on_ground = c.on_ground ∧
      (Ninja_special_attack c now).2.facing = c.facing ∧
      (Ninja_special_attack c now).2.percent = c.percent ∧
      (Ninja_special_attack c now).2.weight = c.weight ∧
      (Ninja_special_attack c now).2.attack_cooldown = c.attack_cooldown ∧
      (Ninja_special_attack c now).2.stocks = c.stocks ∧
      (Ninja_special_attack c now).2.has_attack_anim = c.has_attack_anim ∧
      (Ninja_special_attack c now).2.has_special_anim = c.has_special_anim) ∧
    (∀ c now, 700 ≤ now - c.last_attack_time →
      (Assassin_special_attack c now).1 = some .melee ∧
      (Assassin_special_attack c now).2.rect = { c.rect with x := c.rect.x + 80 * c.facing } ∧
      (Assassin_special_attack c now).2.vel = c.vel ∧
      (Assassin_special_attack c now).2.last_attack_time = now ∧
      (Assassin_special_attack c now).2.active_attacks = c.active_attacks ++
        [⟨(if c.facing = 1 then
            (⟨c.rect.x + 80 * c.facing + c.rect.w, c.rect.y + c.rect.h / 2 - 14, 40, 28⟩ : Rect)
          else
            ⟨c.rect.x + 80 * c.facing - 40, c.rect.y + c.rect.h / 2 - 14, 40, 28⟩),
          16, 18, now, true⟩] ∧
      (Assassin_special_attack c now).2.current_state =
        (if c.has_special_anim then CState.special else c.current_state) ∧
      (Assassin_special_attack c now).2.speed = c.speed ∧
      (Assassin_special_attack c now).2.jump_strength = c.jump_strength ∧
      (Assassin_special_attack c now).2.on_ground = c.on_ground ∧
      (Assassin_special_attack c now).2.facing = c.facing ∧
      (Assassin_special_attack c now).2.percent = c.percent ∧
      (Assassin_special_attack c now).2.weight = c.weight ∧
      (Assassin_special_attack c now).2.attack_cooldown = c.attack_cooldown ∧
      (Assassin_special_attack c now).2.stocks = c.stocks ∧
      (Assassin_special_attack c now).2.has_attack_anim = c.has_attack_anim ∧
      (Assassin_special_attack c now).2.has_special_anim = c.has_special_anim) := by
  constructor
  · intro c now h
    have hn : ¬(now - c.last_attack_time < 400) := not_lt.mpr h
    simp only [Ninja_special_attack, if_neg hn, set_special_anim,
      Rect.right, Rect.left, Rect.centery]
    split_ifs <;> simp
  · intro c now h
    have hn : ¬(now - c.last_attack_time < 700) := not_lt.mpr h
    simp only [Assassin_special_attack, if_neg hn, set_special_anim,
      Rect.right, Rect.left, Rect.centery]
    split_ifs <;> simp

/-- C10, witness: a Ninja at the origin facing right, off cooldown at
t = 1000, ends at `x = 60` with its velocity unchanged; the Assassin ends
at `x = 80`. -/
theorem C10_dash_specials_witness :
    (Ninja_special_attack (Ninja_init ⟨0, 0, 64, 80⟩) 1000).2.rect =
      { (Ninja_init ⟨0, 0, 64, 80⟩).rect with x := 0 + 60 * 1 } ∧
    (Ninja_special_attack (Ninja_init ⟨0, 0, 64, 80⟩) 1000).2.vel =
      (Ninja_init ⟨0, 0, 64, 80⟩).vel ∧
    (Assassin_special_attack (Assassin_init ⟨0, 0, 64, 80⟩) 1000).2.rect =
      { (Assassin_init ⟨0, 0, 64, 80⟩).rect with x := 0 + 80 * 1 } ∧
    (Assassin_special_attack (Assassin_init ⟨0, 0, 64, 80⟩) 1000).2.vel =
      (Assassin_init ⟨0, 0, 64, 80⟩).vel := by
  have hn := C10_dash_specials.1 (Ninja_init ⟨0, 0, 64, 80⟩) 1000 (by decide)
  have ha := C10_dash_specials.2 (Assassin_init ⟨0, 0, 64, 80⟩) 1000 (by decide)
  exact ⟨hn.2.1, hn.2.2.1, ha.2.1, ha.2.2.1⟩

/-! ## C3 — dodge versus range-based behavior in `decide`

Two parts of the claim fail on the code. First, the range-based block is
*not* gated on "no dodge triggered": it always runs after the dodge loop,
and at far/mid range it overwrites the dodge movement with an approach
toward the target. Second, the dodge movement is not "away from the
projectile": the source sets `move = -1 if p.centerx < char.centerx else 1`,
i.e. *toward* the side the projectile is on. The `+10` on `cool` does
hold. -/

/-- C3, counterexample: AI char centered at x=0, target at x=-300 (far
range), an opposing projectile at x=-100 (qualifying threat on the left,
so the evasive move away from it would be `+1`). Draws: activation 0.1,
dodge 0.1 (success), jump 0.9 (no jump), far-special 0.1 (success). The
dodge triggers, yet the final intent has `move = -1` (toward both the
projectile's side and then overwritten by the far-range approach, not the
away-move `+1`) and `special = true` (the supposedly-suppressed
range-based behavior fired); `cool` becomes `20 + 10`. -/
theorem C3_dodge_counterexample :
    (decide (init_char ⟨-32, -40, 64, 80⟩) (init_char ⟨-332, -40, 64, 80⟩)
        [⟨⟨-106, -6, 12, 12⟩, ⟨-5, 0⟩, true, 6, 6, true⟩] false 0 20
        [1/10, 1/10, 9/10, 1/10]).1.move = -1 ∧
    (decide (init_char ⟨-32, -40, 64, 80⟩) (init_char ⟨-332, -40, 64, 80⟩)
        [⟨⟨-106, -6, 12, 12⟩, ⟨-5, 0⟩, true, 6, 6, true⟩] false 0 20
        [1/10, 1/10, 9/10, 1/10]).1.special = true ∧
    (decide (init_char ⟨-32, -40, 64, 80⟩) (init_char ⟨-332, -40, 64, 80⟩)
        [⟨⟨-106, -6, 12, 12⟩, ⟨-5, 0⟩, true, 6, 6, true⟩] false 0 20
        [1/10, 1/10, 9/10, 1/10]).2.1 = 30 ∧
    (-1 : ℤ) ≠ 1 := by
  refine ⟨?_, ?_, ?_, by decide⟩ <;>
    norm_num [decide, decide_active, decide_default, dodge_scan, retreat_override, pop,
      init_char, Rect.centerx, Rect.centery]

/-- C3 (amended): in the active decision branch, when the dodge loop
triggers on the first qualifying opposing projectile that passes its 60%
roll, the intent's movement is set *toward* that projectile's side
(`-1` if its center is left of the character's, else `+1`) and 10 is added
to `cool` (on top of the fresh `randint` reset); but the range-based
behavior still executes unconditionally afterwards: at far/mid range
(distance > 120) it overwrites the movement with the approach toward the
target, and the dodge movement survives in the final intent only at close
range (and absent the percent-120 retreat override). -/
theorem C3_dodge (c target : Char) (projs : List Projectile) (sip : Bool)
    (rint : ℤ) (rolls rolls2 : List ℚ) (mv : ℤ) (j : Bool)
    (hd : dodge_scan sip c projs rolls = (some (mv, j), rolls2)) :
    (∀ p ps r rj rs2,
      (p.ownerIsPlayer ≠ sip ∧ |p.rect.centery - c.rect.centery| < 40 ∧
        |p.rect.centerx - c.rect.centerx| < 180) → r < 3/5 →
      dodge_scan sip c (p :: ps) (r :: rj :: rs2) =
        (some (if p.rect.centerx < c.rect.centerx then -1 else 1,
          Decidable.decide (rj < 2/5)), rs2)) ∧
    (decide_active c target projs sip rint rolls).2.1 = rint + 10 ∧
    (|target.rect.centerx - c.rect.centerx| > 120 → c.percent ≤ 120 →
      (decide_active c target projs sip rint rolls).1.move =
        (if target.rect.centerx - c.rect.centerx > 0 then 1 else -1)) ∧
    (|target.rect.centerx - c.rect.centerx| ≤ 120 → c.percent ≤ 120 →
      (decide_active c target projs sip rint rolls).1.move = mv) := by
  have hro_cool : ∀ (dist_x move : ℤ) (jump lgt hvy spc : Bool) (cool : ℤ)
      (rs : List ℚ),
      (retreat_override c dist_x move jump lgt hvy spc cool rs).2.1 = cool := by
    intro dist_x move jump lgt hvy spc cool rs
    simp only [retreat_override]
    split_ifs <;> rfl
  have hro_move : ∀ (dist_x move : ℤ) (jump lgt hvy spc : Bool) (cool : ℤ)
      (rs : List ℚ), c.percent ≤ 120 →
      (retreat_override c dist_x move jump lgt hvy spc cool rs).1.move = move := by
    intro dist_x move jump lgt hvy spc cool rs h120
    simp only [retreat_override, if_neg (not_lt.mpr h120)]
  refine ⟨?_, ?_, ?_, ?_⟩
  · intro p ps r rj rs2 hq hr
    simp only [dodge_scan, if_pos hq, pop, if_pos hr]
  · simp only [decide_active, hd]
    split_ifs <;> rw [hro_cool]
  · intro hdist hp
    simp only [decide_active, hd]
    split_ifs <;> exact hro_move _ _ _ _ _ _ _ _ hp
  · intro hdist hp
    simp only [decide_active, hd]
    have h1 : ¬(|target.rect.centerx - c.rect.centerx| > 220) := by omega
    have h2 : ¬(|target.rect.centerx - c.rect.centerx| > 120) := by omega
    rw [if_neg h1, if_neg h2]
    split_ifs <;> exact hro_move _ _ _ _ _ _ _ _ hp

/-- C3, witness: the amended statement on the concrete scenario of the
counterexample (dodge triggered with move `-1`, far-range target on the
left): the cool gains 10 on top of the reset value 20, and the final
movement is the far-range approach toward the target. -/
theorem C3_dodge_witness :
    (decide_active (init_char ⟨-32, -40, 64, 80⟩) (init_char ⟨-332, -40, 64, 80⟩)
        [⟨⟨-106, -6, 12, 12⟩, ⟨-5, 0⟩, true, 6, 6, true⟩] false 20
        [1/10, 9/10]).2.1 = 20 + 10 ∧
    (decide_active (init_char ⟨-32, -40, 64, 80⟩) (init_char ⟨-332, -40, 64, 80⟩)
        [⟨⟨-106, -6, 12, 12⟩, ⟨-5, 0⟩, true, 6, 6, true⟩] false 20
        [1/10, 9/10]).1.move =
      (if (init_char ⟨-332, -40, 64, 80⟩).rect.centerx -
          (init_char ⟨-32, -40, 64, 80⟩).rect.centerx > 0 then 1 else -1) := by
  have h := C3_dodge (init_char ⟨-32, -40, 64, 80⟩) (init_char ⟨-332, -40, 64, 80⟩)
    [⟨⟨-106, -6, 12, 12⟩, ⟨-5, 0⟩, true, 6, 6, true⟩] false 20
    [1/10, 9/10] [] (-1) false
    (by norm_num [dodge_scan, pop, init_char, Rect.centerx, Rect.centery])
  exact ⟨h.2.1, h.2.2.1 (by decide) (by norm_num [init_char])⟩

end Smash
